import Mathlib

/-!
Verification development for the NachOS MP4 file-system layer
(`filesys.cc` and `filehdr.cc`).

The source is shallowly embedded: C++ machine integers that hold byte
counts and sector counts are modelled as `Nat` (all inputs of interest
are non-negative and no overflow is reachable at the sizes involved),
sector references stored in directory entries and in `dataSectors` are
modelled as `Int` because the source uses `-1` as a sentinel, and every
operation that can hit a fatal `ASSERT` or C++ undefined behaviour
returns an `Option` / a result constructor that records the state at
the point of failure.  `delete` of a pointer that was assigned (or of
a null pointer) is a no-op in the model — it frees heap memory only
and touches no modelled state — but `delete` of a NEVER-ASSIGNED local
pointer is, like any other use of an indeterminate pointer, undefined
behaviour and is modelled as such.
-/

set_option autoImplicit false
set_option maxRecDepth 40000

namespace NachosFS

/-- Modelled from the spec: `SectorSize` comes from `disk.h`, which is not
part of the provided sources; the standard NachOS value is 128 bytes. -/
def SectorSize : Nat := 128

/-- Modelled from the spec: `NumSectors` comes from `disk.h`; the spec
only fixes that the universe of sector indices is set at format time.
No claim depends on the disk's exact size, so the embedding uses a
128-sector disk, large enough for every scenario below (standard
NachOS ships 1024 sectors; only this constant would change). -/
def NumSectors : Nat := 128

/-- Modelled from the spec: `NumDirect` is the fixed capacity of the
`dataSectors` array in `filehdr.h` (not in the provided sources); the
standard NachOS value is 30 entries. -/
def NumDirect : Nat := 30

/-- Modelled from the spec: first indirection threshold `T1` — the direct
span, `NumDirect * SectorSize` bytes. -/
def MaxFileSize : Nat := NumDirect * SectorSize

/-- Modelled from the spec: second indirection threshold `T2`; each child
of a level-2 record covers a full level-1 span. -/
def MaxFileSize2 : Nat := NumDirect * MaxFileSize

/-- Modelled from the spec: third indirection threshold `T3`; each child
of a level-3 record covers a full level-2 span. -/
def MaxFileSize3 : Nat := NumDirect * MaxFileSize2

/-- Modelled from the spec: `divRoundUp` utility from `utility.h`. -/
def divRoundUp (n d : Nat) : Nat := (n + d - 1) / d

/-- Number of directory entries per directory, `NumDirEntries` in
`filesys.cc` (the source sets it to 64). -/
def NumDirEntries : Nat := 64

/-- Modelled from the spec: the serialized size of one `DirectoryEntry`
(`directory.h` is not in the provided sources); a bounded name plus a
sector index and two flags, 20 bytes. -/
def DirEntrySize : Nat := 20

/-- `DirectoryFileSize` from `filesys.cc`: `sizeof(DirectoryEntry) * NumDirEntries`. -/
def DirectoryFileSize : Nat := DirEntrySize * NumDirEntries

/-- `FreeMapFileSize` from `filesys.cc`: `NumSectors / BitsInByte`. -/
def FreeMapFileSize : Nat := NumSectors / 8

/-! ## Free-space bitmap

Modelled from the spec (§4.1): `bitmap.cc` / `pbitmap.cc` are not in the
provided sources.  A bitmap is a bit vector of length `NumSectors`,
`true` = allocated.  `Test` and `Clear` assert that the index is in
range; a violated assertion is a fatal abort, modelled as `none`. -/

/-- A free-space bitmap: one `Bool` per sector, `true` = allocated. -/
def BM : Type := List Bool

instance : DecidableEq BM := inferInstanceAs (DecidableEq (List Bool))

/-- Modelled from the spec: `NumClear` counts the clear (free) bits. -/
def bmNumClear (bm : BM) : Nat := List.countP (fun b => !b) bm

/-- Modelled from the spec: `Mark` sets a bit (index known to be in range
at every call site in the embedding). -/
def bmMark (bm : BM) (i : Nat) : BM := List.set bm i true

/-- Modelled from the spec: `Clear` on an index already checked to be in
range. -/
def bmClear (bm : BM) (i : Nat) : BM := List.set bm i false

/-- Modelled from the spec: `Test(which)` asserts `0 <= which < NumSectors`
and returns the bit; an out-of-range index is a fatal abort (`none`). -/
def bmTest (bm : BM) (which : Int) : Option Bool :=
  if 0 ≤ which ∧ which < (NumSectors : Int) then some (List.getD bm which.toNat false)
  else none

/-- Index of the lowest clear bit, if any. -/
def findClear : List Bool → Option Nat
  | [] => none
  | b :: rest => if b then Option.map (· + 1) (findClear rest) else some 0

/-- Modelled from the spec: `FindAndSet` scans for the lowest clear bit,
sets it and returns its index; `none` when the bitmap is full (the
source returns `-1`). -/
def bmFindAndSet (bm : BM) : Option (Nat × BM) :=
  match findClear bm with
  | none => none
  | some i => some (i, bmMark bm i)

/-! ## File header (Extent Map), from `filehdr.cc` -/

/-- In-memory `FileHeader` record: `numBytes`, `numSectors` and the
fixed-capacity `dataSectors` array (entries are `-1` when unused, as
set by the constructor's `memset`). -/
structure FileHeader where
  numBytes : Nat
  numSectors : Nat
  dataSectors : List Int
  deriving DecidableEq

/-- The `dataSectors` array as initialized by the `FileHeader`
constructor: every entry `-1`. -/
def initSectors : List Int := List.replicate NumDirect (-1)

/-- On-disk header records, keyed by the sector each record was written
to by `FileHeader::WriteBack`. -/
def Headers : Type := Nat → Option FileHeader

/-- The disk before any header has been written. -/
def emptyHeaders : Headers := fun _ => none

/-- Record a header written back to a sector. -/
def updateH (hs : Headers) (sec : Nat) (h : FileHeader) : Headers :=
  fun j => if j = sec then some h else hs j

/-- Result of `FileHeader::Allocate`: `ok success hdr bm hs` is a normal
return (the header fields as set by the call, the mutated bitmap, the
header records written to disk); `abort bm hs` is a fatal `ASSERT`
failure, carrying the state already committed when the abort fired. -/
inductive AllocResult where
  | ok (success : Bool) (hdr : FileHeader) (bm : BM) (hs : Headers)
  | abort (bm : BM) (hs : Headers)

/-- Sizes of the child extent maps claimed by one indirect-allocation
loop of `FileHeader::Allocate`: each pass claims `limit` bytes
(`MaxFileSize`, `MaxFileSize2` or `MaxFileSize3`) except the last,
which claims the remainder; mirrors `while (fileSize > 0) { ...
fileSize -= limit; }`. -/
def childSizesF : Nat → Nat → Nat → List Nat
  | 0, _, _ => []
  | fuel + 1, limit, n =>
    if n = 0 then []
    else (if n > limit then limit else n) :: childSizesF fuel limit (n - limit)

/-- The loop runs once per `limit`-sized slice of `n`, so `n` rounds of
fuel always suffice (every call site passes a positive `limit`). -/
def childSizes (limit n : Nat) : List Nat := childSizesF n limit n

/-- Result of the direct-allocation loop of `FileHeader::Allocate`:
`abort` models `ASSERT(dataSectors[i] >= 0)` firing when `FindAndSet`
returns `-1`. -/
inductive DirectRes where
  | ok (ds : List Int) (bm : BM)
  | abort (bm : BM)

/-- Direct branch of `FileHeader::Allocate`:
`for i in 0..numSectors-1: dataSectors[i] = freeMap->FindAndSet()`. -/
def allocDirect : Nat → Nat → List Int → BM → DirectRes
  | 0, _, ds, bm => .ok ds bm
  | n + 1, i, ds, bm =>
    match bmFindAndSet bm with
    | none => .abort bm
    | some (sec, bm1) => allocDirect n (i + 1) (List.set ds i (Int.ofNat sec)) bm1

/-- Result of one indirect-allocation loop: as `DirectRes` but also
threading the header records written by `next->WriteBack`. -/
inductive KidsRes where
  | ok (ds : List Int) (bm : BM) (hs : Headers)
  | abort (bm : BM) (hs : Headers)

/-- One indirect-allocation loop of `FileHeader::Allocate`: for each
child, `dataSectors[i] = freeMap->FindAndSet()` (fatal if `-1`), then
`ASSERT(next->Allocate(freeMap, childSize))` (fatal if the recursive
call returns `FALSE` or itself aborts), then
`next->WriteBack(dataSectors[i])`. -/
def allocKidsGo (alloc : BM → Headers → Nat → AllocResult) :
    List Nat → Nat → List Int → BM → Headers → KidsRes
  | [], _, ds, bm, hs => .ok ds bm hs
  | sz :: rest, i, ds, bm, hs =>
    match bmFindAndSet bm with
    | none => .abort bm hs
    | some (sec, bm1) =>
      match alloc bm1 hs sz with
      | .ok true child bm2 hs2 =>
        allocKidsGo alloc rest (i + 1) (List.set ds i (Int.ofNat sec)) bm2 (updateH hs2 sec child)
      | .ok false _ bm2 hs2 => .abort bm2 hs2
      | .abort bm2 hs2 => .abort bm2 hs2

/-- Package a finished indirect loop as an `AllocResult`. -/
def kidsToRes (nb ns : Nat) : KidsRes → AllocResult
  | .ok ds bm hs => .ok true ⟨nb, ns, ds⟩ bm hs
  | .abort bm hs => .abort bm hs

/-- `FileHeader::Allocate` (filehdr.cc, lines 803-869), fuelled: the fuel
only bounds the indirection recursion depth and `fileSize + 1` always
suffices, since every child's size is strictly smaller than its
parent's.  Sets `numBytes`/`numSectors`, pre-checks only
`NumClear() < numSectors`, then allocates either child extent maps (one
loop per threshold) or direct data sectors. -/
def allocateF : Nat → BM → Headers → Nat → AllocResult
  | 0, bm, hs, _ => .abort bm hs
  | fuel + 1, bm, hs, fileSize =>
    let ns := divRoundUp fileSize SectorSize
    if bmNumClear bm < ns then .ok false ⟨fileSize, ns, initSectors⟩ bm hs
    else if fileSize > MaxFileSize3 then
      kidsToRes fileSize ns
        (allocKidsGo (fun b h n => allocateF fuel b h n)
          (childSizes MaxFileSize3 fileSize) 0 initSectors bm hs)
    else if fileSize > MaxFileSize2 then
      kidsToRes fileSize ns
        (allocKidsGo (fun b h n => allocateF fuel b h n)
          (childSizes MaxFileSize2 fileSize) 0 initSectors bm hs)
    else if fileSize > MaxFileSize then
      kidsToRes fileSize ns
        (allocKidsGo (fun b h n => allocateF fuel b h n)
          (childSizes MaxFileSize fileSize) 0 initSectors bm hs)
    else
      match allocDirect ns 0 initSectors bm with
      | .ok ds bm1 => .ok true ⟨fileSize, ns, ds⟩ bm1 hs
      | .abort bm1 => .abort bm1 hs

/-- `FileHeader::Allocate` at its call sites (always called on a freshly
constructed header, whose `dataSectors` entries are all `-1`). -/
def allocate (bm : BM) (hs : Headers) (fileSize : Nat) : AllocResult :=
  allocateF (fileSize + 1) bm hs fileSize

/-- Loop body of `FileHeader::Deallocate`: for `i` in
`0..numSectors-1`, `ASSERT(freeMap->Test(dataSectors[i]))` (fatal when
the entry is out of range — in particular when it is the constructor's
`-1` filler — or when the bit is already clear), then
`freeMap->Clear(dataSectors[i])`. -/
def deallocGo (ds : List Int) : List Nat → BM → Option BM
  | [], bm => some bm
  | i :: rest, bm =>
    match bmTest bm (List.getD ds i (-1)) with
    | none => none
    | some false => none
    | some true => deallocGo ds rest (bmClear bm (List.getD ds i (-1)).toNat)

/-- `FileHeader::Deallocate` (filehdr.cc, lines 878-895): clears
`dataSectors[0..numSectors)` and nothing else — it never recurses into
child extent maps. -/
def deallocate (h : FileHeader) (bm : BM) : Option BM :=
  deallocGo h.dataSectors (List.range h.numSectors) bm

/-- `FileHeader::ByteToSector` (filehdr.cc, lines 949-974).  In the three
indirect branches the source computes
`which = divRoundDown(offset, MaxFileSizeK)`, fetches the child header
from `dataSectors[which]` and calls `next->ByteToSector(offset -
which*MaxFileSizeK)` — but it DISCARDS that value and falls off the end
of the non-void function, so the returned `int` is indeterminate;
modelled as `none`.  Only the direct branch returns a value:
`dataSectors[offset / SectorSize]`. -/
def byteToSector (h : FileHeader) (offset : Nat) : Option Int :=
  if h.numBytes > MaxFileSize3 then none
  else if h.numBytes > MaxFileSize2 then none
  else if h.numBytes > MaxFileSize then none
  else some (List.getD h.dataSectors (offset / SectorSize) (-1))

/-! ## Concrete inputs for the header-level claims -/

/-- A completely clear bitmap over the whole disk. -/
def emptyBM : BM := List.replicate NumSectors false

/-- Header produced by an `AllocResult`, with a dummy default for the
abort case (never used on the paths below). -/
def hdrOfRes : AllocResult → FileHeader
  | .ok _ h _ _ => h
  | .abort _ _ => ⟨0, 0, []⟩

/-- Bitmap carried by an `AllocResult` (for `abort`, the bitmap as
already mutated when the assertion fired). -/
def bmOfRes : AllocResult → BM
  | .ok _ _ bm _ => bm
  | .abort bm _ => bm

/-- The boolean outcome of an `AllocResult`, `none` for a fatal abort. -/
def resSuccess : AllocResult → Option Bool
  | .ok b _ _ _ => some b
  | .abort _ _ => none

/-- Allocation of the smallest file that needs indirection
(`MaxFileSize + 1 = 3841` bytes) on an all-clear bitmap. -/
def allocRes1 : AllocResult := allocate emptyBM emptyHeaders (MaxFileSize + 1)

/-- The header returned by `allocRes1`. -/
def hdr1 : FileHeader := hdrOfRes allocRes1

/-- The bitmap after `allocRes1`. -/
def bm1 : BM := bmOfRes allocRes1

/-- A bitmap with exactly 31 clear sectors — exactly
`divRoundUp 3841 128`, the number of data sectors of a 3841-byte file,
but two fewer than the 33 sectors its extent-map tree actually needs. -/
def bm31 : BM := List.replicate 31 false ++ List.replicate (NumSectors - 31) true

/-- Allocation of a 3841-byte file against `bm31`. -/
def allocRes2 : AllocResult := allocate bm31 emptyHeaders (MaxFileSize + 1)

/-- C1: the claim says `Deallocate(bitmap)` on the top-level extent map of
any allocated file — including one needing indirection — clears every
sector the tree owns, so `countClear()` is restored.  On the code this
fails: for the smallest indirect file (3841 bytes) `Allocate` succeeds
(claiming 33 sectors: 2 child headers plus 31 data sectors), but
`Deallocate` walks `dataSectors[0..numSectors)` = 31 entries of which
only 2 are in use, never recurses into the child extent maps, and hits
the `-1` filler at index 2, where `ASSERT(freeMap->Test(...))` aborts
fatally; no sector of the child subtrees is ever freed and
`countClear()` is not restored. -/
theorem deallocate_indirect_aborts_and_leaks :
    resSuccess allocRes1 = some true ∧
    bmNumClear bm1 = bmNumClear emptyBM - 33 ∧
    deallocate hdr1 bm1 = none := by decide

/-- C2: the claim says `Allocate` validates free-space sufficiency for
the whole extent-map tree before committing any sector and returns
failure (`OutOfSpace`) when the bitmap cannot satisfy the total.  On
the code this fails: for a 3841-byte file against a bitmap with
exactly 31 clear sectors the pre-check `NumClear() < numSectors`
passes (it counts only the 31 data sectors, not the 2 child-header
sectors), allocation then runs out of sectors mid-tree, and the
`ASSERT` aborts fatally with all 31 formerly-free sectors already
marked — a partial commit, not a failure return. -/
theorem allocate_partial_commit_abort :
    bmNumClear bm31 = 31 ∧
    divRoundUp (MaxFileSize + 1) SectorSize = 31 ∧
    resSuccess allocRes2 = none ∧
    bmNumClear (bmOfRes allocRes2) = 0 := by decide

/-- C3: the claim says `ByteToSector(offset)` returns the covering data
sector for every offset of every allocated file, recursing through
indirect records.  On the code this fails for any indirect file: the
indirect branches of `FileHeader::ByteToSector` compute the child
recursion but never `return` it, falling off the end of the non-void
function (an indeterminate value, modelled `none`); here the 3841-byte
file and in-range offset 3840 exercise that path. -/
theorem byteToSector_indirect_undefined :
    3840 < hdr1.numBytes ∧
    byteToSector hdr1 3840 = none := by decide

/-! ## Directory

Modelled from the spec (§4.3): `directory.cc` / `directory.h` are not in
the provided sources.  A directory is a fixed-capacity table of 64
entries; `Find` does a linear scan over in-use entries; `Add` fails if
the name is present or no slot is free, otherwise it occupies the first
free slot; `Remove` clears the matching in-use entry. -/

/-- One directory entry: `inUse`, `name`, `sector` of the entry's extent
map, and the `isDir` flag used by `AddDir` / `RRemove`. -/
structure DirEntry where
  inUse : Bool
  name : String
  sector : Int
  isDir : Bool
  deriving DecidableEq

/-- A directory: the fixed 64-entry table. -/
structure Directory where
  table : List DirEntry
  deriving DecidableEq

/-- A never-used table slot (zero-initialized). -/
def emptyEntry : DirEntry := ⟨false, "", 0, false⟩

/-- A freshly constructed, completely empty directory. -/
def emptyDir : Directory := ⟨List.replicate NumDirEntries emptyEntry⟩

/-- Modelled from the spec: `Directory::Find` returns the matching in-use
entry's header sector, or `-1` when the name is absent. -/
def dirFind (d : Directory) (n : String) : Int :=
  match List.find? (fun e => e.inUse && e.name == n) d.table with
  | some e => e.sector
  | none => -1

/-- Index of the first not-in-use table slot, if any. -/
def firstFreeIdx : List DirEntry → Option Nat
  | [] => none
  | e :: rest => if e.inUse then Option.map (· + 1) (firstFreeIdx rest) else some 0

/-- Modelled from the spec: `Directory::Add` / `AddDir` — fails (`none`)
if the name is already present among the in-use entries or no slot is
free, otherwise occupies the first free slot. -/
def dirAdd (d : Directory) (n : String) (sec : Int) (isD : Bool) : Option Directory :=
  if (List.find? (fun e => e.inUse && e.name == n) d.table).isSome then none
  else
    match firstFreeIdx d.table with
    | none => none
    | some i => some ⟨List.set d.table i ⟨true, n, sec, isD⟩⟩

/-- Modelled from the spec: `Directory::Remove` clears the matching
in-use entry (identity when the name is absent; every call site in the
embedding has already checked presence via `Find`). -/
def dirRemove (d : Directory) (n : String) : Directory :=
  match List.findIdx? (fun e => e.inUse && e.name == n) d.table with
  | none => d
  | some i =>
    match List.getD d.table i emptyEntry with
    | e => ⟨List.set d.table i { e with inUse := false }⟩

/-- The in-use entries of a directory, in table order, as
(name, isDir) pairs — what `Directory::List` prints. -/
def dirListNames (d : Directory) : List (String × Bool) :=
  List.map (fun e => (e.name, e.isDir)) (List.filter (fun e => e.inUse) d.table)

/-! ## File-system state, from `filesys.cc`

The disk is modelled at the granularity the claims need: the persisted
free-map file content (`bitmapFile`), the header records written by
`FileHeader::WriteBack` (keyed by their sector), and the directory
tables written as file content through an `OpenFile` (keyed by that
file's header sector — distinct files never share sectors on the paths
considered, so this keying is faithful). -/

structure FSState where
  bitmapFile : BM
  headers : Headers
  dirs : Nat → Option Directory

/-- A `Directory::FetchFrom` through the file whose header sits at
`sec`: yields the directory table stored there, or a garbage
(zero-looking) table when the sector does not hold one. -/
def fetchDir (s : FSState) (sec : Nat) : Directory :=
  (s.dirs sec).getD emptyDir

/-- Record a directory table written back through the file whose header
sits at `sec`. -/
def updateD (m : Nat → Option Directory) (sec : Nat) (d : Directory) :
    Nat → Option Directory :=
  fun j => if j = sec then some d else m j

/-- The state right after `FileSystem::FileSystem(TRUE)` (format): marks
sectors 0 and 1, allocates the free-map file's and the root directory
file's data blocks, writes both headers to their fixed sectors, then
writes back the now-populated bitmap and an empty root directory. -/
def fmtState : FSState :=
  let bmA := bmMark (bmMark (List.replicate NumSectors false) 0) 1
  let r1 := allocate bmA emptyHeaders FreeMapFileSize
  let r2 := allocate (bmOfRes r1) emptyHeaders DirectoryFileSize
  { bitmapFile := bmOfRes r2
  , headers := fun j =>
      if j = 0 then some (hdrOfRes r1) else if j = 1 then some (hdrOfRes r2) else none
  , dirs := fun j => if j = 1 then some emptyDir else none }

/-! ## `FileSystem::Create` (filesys.cc, lines 187-253)

The path has already been cut into its non-empty components
(`strtok(name, "/")`).  Loop-local variables: the in-memory `directory`
copy (fetched from the root before the loop and replaced on descent),
`openFileDir` (declared but NOT initialized — `none` models the
uninitialized pointer), `count`, and `success` (overwritten every
iteration; the value returned is the last iteration's). -/

/-- Outcome of a file-system call: `ok success s` is a normal return;
`ub s` records that C++ undefined behaviour or a fatal `ASSERT` was
reached, with the on-disk state as already committed at that point. -/
inductive CResult where
  | ok (success : Bool) (s : FSState)
  | ub (s : FSState)

/-- Outcome of one iteration of the `Create` loop. -/
inductive StepRes where
  | ub (s : FSState)
  | next (s : FSState) (dir : Directory) (ofd : Option Int) (success : Bool)

/-- One iteration of the `Create` loop body for component `pch`.  If the
component is found, descend: `openFileDir = new OpenFile(sector)`
(whose constructor reads the sector — fatal if out of range) and
re-fetch `directory` through it, with `success = FALSE`.  Otherwise
treat `pch` as a file to create: fetch a fresh bitmap, claim a header
sector, `Add` the entry, `Allocate` the data, and on success write the
header, the directory (to the root file when `count == 0`, else
through `openFileDir` — UNDEFINED when `openFileDir` was never
assigned) and the bitmap back to disk.  A fatal abort inside
`Allocate` carries the child header records it had already written to
disk; the in-memory bitmap copy is lost, never written back. -/
def createStep (sz : Nat) (s : FSState) (dir : Directory) (ofd : Option Int)
    (count : Nat) (pch : String) : StepRes :=
  let sec := dirFind dir pch
  if sec ≠ -1 then
    if 0 ≤ sec ∧ sec < (NumSectors : Int) then
      .next s (fetchDir s sec.toNat) (some sec) false
    else .ub s
  else
    match bmFindAndSet s.bitmapFile with
    | none => .next s dir ofd false
    | some (sector, bmA) =>
      match dirAdd dir pch (Int.ofNat sector) false with
      | none => .next s dir ofd false
      | some dir1 =>
        match allocate bmA s.headers sz with
        | .abort _ hsX => .ub { s with headers := hsX }
        | .ok false _ _ _ => .next s dir1 ofd false
        | .ok true hdr bmB hsB =>
          let s1 : FSState := { s with headers := updateH hsB sector hdr }
          if count = 0 then
            .next { s1 with dirs := updateD s1.dirs 1 dir1, bitmapFile := bmB }
              dir1 ofd true
          else
            match ofd with
            | none => .ub s1
            | some o =>
              .next { s1 with dirs := updateD s1.dirs o.toNat dir1, bitmapFile := bmB }
                dir1 ofd true

/-- The `while (cntNull == 0)` loop of `Create`: run the body for the
current component, then continue with the next component if one
remains (`strtok` returning `NULL` ends the loop after the current
iteration).  `fmSet` tracks whether any iteration has assigned the
loop-local `freeMap` pointer, which happens exactly when an iteration
takes the not-found branch (`freeMap = new PersistentBitmap(...)` is
its first statement): after the loop the source executes
`delete freeMap` unconditionally, which on a never-assigned
(indeterminate) pointer is undefined behaviour — so a walk in which
every component resolved ends in UB, not in a well-defined return. -/
def createLoop (sz : Nat) (s : FSState) (dir : Directory) (ofd : Option Int)
    (count : Nat) (fmSet : Bool) (pch : String) : List String → CResult
  | [] =>
    match createStep sz s dir ofd count pch with
    | .ub s1 => .ub s1
    | .next s1 _ _ succ =>
      if fmSet || decide (dirFind dir pch = -1) then .ok succ s1
      else .ub s1
  | p :: ps =>
    match createStep sz s dir ofd count pch with
    | .ub s1 => .ub s1
    | .next s1 dir1 ofd1 _ =>
      createLoop sz s1 dir1 ofd1 (count + 1)
        (fmSet || decide (dirFind dir pch = -1)) p ps

/-- `FileSystem::Create(name, initialSize)` on the already-split
component list (an empty list means `strtok` returned `NULL`
immediately and the loop body dereferences a null `pch`: UB).  The
loop starts with `freeMap` unassigned (`fmSet = false`). -/
def createFS (s : FSState) (comps : List String) (sz : Nat) : CResult :=
  match comps with
  | [] => .ub s
  | p :: ps => createLoop sz s (fetchDir s 1) none 0 false p ps

/-! ## `FileSystem::CreateDir` (filesys.cc, lines 254-322) -/

/-- The per-iteration directory fetch of `CreateDir`: from the root file
when `count == 0`, else through `openFileDir` — `none` (UB at the
fetch) when `openFileDir` was never assigned, and a fatal abort when
its sector is out of disk range. -/
def createDirFetch (s : FSState) (ofd : Option Int) (count : Nat) : Option Directory :=
  if count = 0 then some (fetchDir s 1)
  else
    match ofd with
    | none => none
    | some o => if 0 ≤ o ∧ o < (NumSectors : Int) then some (fetchDir s o.toNat) else none

/-- Success tail of the `CreateDir` creation branch (filesys.cc
296-308): `hdr->WriteBack(sector)`, write the parent directory (to the
root file when `count == 0`, else through `openFileDir`), write the
bitmap back, then write a fresh empty directory through a new
`OpenFile(sector)`, which also becomes `openFileDir`. -/
def createDirCommit (s : FSState) (ofd : Option Int) (count : Nat)
    (sector : Nat) (dir1 : Directory) (hdr : FileHeader) (bmB : BM) (hsB : Headers) :
    StepRes :=
  let s1 : FSState := { s with headers := updateH hsB sector hdr }
  let s2 : FSState :=
    if count = 0 then
      { s1 with dirs := updateD s1.dirs 1 dir1, bitmapFile := bmB }
    else
      match ofd with
      | none => s1 -- unreachable: the fetch already required ofd
      | some o => { s1 with dirs := updateD s1.dirs o.toNat dir1, bitmapFile := bmB }
  .next { s2 with dirs := updateD s2.dirs sector emptyDir }
    dir1 (some (Int.ofNat sector)) true

/-- `hdr->Allocate(freeMap, DirectoryFileSize)` of the `CreateDir`
creation branch: a fatal abort carries the child headers already on
disk; a `FALSE` return leads to `delete newDir` on the uninitialized
`newDir` pointer (UB, nothing committed). -/
def createDirAlloc (s : FSState) (ofd : Option Int) (count : Nat)
    (sector : Nat) (bmA : BM) (dir1 : Directory) : StepRes :=
  match allocate bmA s.headers DirectoryFileSize with
  | .abort _ hsX => .ub { s with headers := hsX }
  | .ok false _ _ _ => .ub s
  | .ok true hdr bmB hsB => createDirCommit s ofd count sector dir1 hdr bmB hsB

/-- `directory->AddDir(pch, sector)` of the `CreateDir` creation branch:
on failure `success = FALSE` and the loop moves on with nothing
changed. -/
def createDirClaim (s : FSState) (ofd : Option Int) (count : Nat) (pch : String)
    (dir : Directory) (sector : Nat) (bmA : BM) : StepRes :=
  match dirAdd dir pch (Int.ofNat sector) true with
  | none => .next s dir ofd false
  | some dir1 => createDirAlloc s ofd count sector bmA dir1

/-- The creation branch of the `CreateDir` loop body: fetch a fresh
bitmap, claim a header sector (`sector == -1` means `success = FALSE`
and move on), then `AddDir`, allocate and commit. -/
def createDirMissing (s : FSState) (ofd : Option Int) (count : Nat) (pch : String)
    (dir : Directory) : StepRes :=
  match bmFindAndSet s.bitmapFile with
  | none => .next s dir ofd false
  | some (sector, bmA) => createDirClaim s ofd count pch dir sector bmA

/-- The `CreateDir` loop body on the fetched directory: a found
component just redirects `openFileDir` (descent happens at the next
iteration's fetch, fatal if the entry's sector is out of disk range);
a missing component is created as a nested directory. -/
def createDirBody (s : FSState) (ofd : Option Int) (count : Nat) (pch : String)
    (dir : Directory) : StepRes :=
  let sec := dirFind dir pch
  if sec ≠ -1 then
    if 0 ≤ sec ∧ sec < (NumSectors : Int) then .next s dir (some sec) false
    else .ub s
  else createDirMissing s ofd count pch dir

/-- One iteration of the `CreateDir` loop for component `pch`: the
per-iteration fetch followed by the loop body. -/
def createDirStep (s : FSState) (ofd : Option Int) (count : Nat)
    (pch : String) : StepRes :=
  match createDirFetch s ofd count with
  | none => .ub s
  | some dir => createDirBody s ofd count pch dir

/-- The `while (pch != NULL)` loop of `CreateDir`.  After the loop the
source executes `delete openFileDir`; when no iteration ever assigned
`openFileDir` (every attempt failed before the assignment) that is a
`delete` of an indeterminate pointer: undefined behaviour, detected
here by the final iteration's `ofd` still being `none`. -/
def createDirLoop (s : FSState) (ofd : Option Int) (count : Nat)
    (pch : String) : List String → CResult
  | [] =>
    match createDirStep s ofd count pch with
    | .ub s1 => .ub s1
    | .next s1 _ ofd1 succ =>
      match ofd1 with
      | none => .ub s1
      | some _ => .ok succ s1
  | p :: ps =>
    match createDirStep s ofd count pch with
    | .ub s1 => .ub s1
    | .next s1 _ ofd1 _ => createDirLoop s1 ofd1 (count + 1) p ps

/-- `FileSystem::CreateDir(name)` on the already-split component list
(an empty list skips the loop and returns the uninitialized `success`
after deleting the uninitialized `openFileDir`: UB). -/
def createDirFS (s : FSState) (comps : List String) : CResult :=
  match comps with
  | [] => .ub s
  | p :: ps => createDirLoop s none 0 p ps

/-! ## `FileSystem::Open` (filesys.cc, lines 333-375) -/

/-- What `Open` hands back: a real `OpenFile` bound to a header sector,
or the value of the never-assigned local `openFileDir`
(an indeterminate pointer — the source has no code path that returns
`NULL`). -/
inductive OpenResult where
  | handle (sec : Int)
  | uninit
  deriving DecidableEq

/-- The `while (pch != NULL)` loop of `Open`: for each component, look it
up in the current directory; when `sector >= 0`, open that sector
(fatal if out of disk range: modelled `none`) and descend; when the
component is ABSENT the loop just moves on, keeping the current
directory and the previous `openFileDir`.  The function returns
whatever `openFileDir` last held. -/
def openLoop (s : FSState) (dir : Directory) (ofd : OpenResult) :
    List String → Option OpenResult
  | [] => some ofd
  | c :: cs =>
    let sec := dirFind dir c
    if 0 ≤ sec then
      if sec < (NumSectors : Int) then openLoop s (fetchDir s sec.toNat) (.handle sec) cs
      else none
    else openLoop s dir ofd cs

/-- `FileSystem::Open(name)` on the already-split component list. -/
def openFS (s : FSState) (comps : List String) : Option OpenResult :=
  openLoop s (fetchDir s 1) .uninit comps

/-! ## `FileSystem::Remove` (filesys.cc, lines 435-466)

`Remove` never splits its argument: it fetches the ROOT directory and
looks the whole `name` string up there.  On a hit it fetches the
target's header, calls `Deallocate`, clears the header's own sector,
removes the directory entry, and writes the bitmap and the root
directory back. -/

/-- Default header modelling a `FetchFrom` of a sector that holds no
header record (raw garbage in C++). -/
def garbageHeader : FileHeader := ⟨0, 0, initSectors⟩

/-- `FileSystem::Remove(name)`. -/
def removeFS (s : FSState) (name : String) : CResult :=
  let dir := fetchDir s 1
  let sec := dirFind dir name
  if sec = -1 then .ok false s
  else if 0 ≤ sec ∧ sec < (NumSectors : Int) then
    let hdr := (s.headers sec.toNat).getD garbageHeader
    match deallocate hdr s.bitmapFile with
    | none => .ub s
    | some bmA =>
      let bmB := bmClear bmA sec.toNat
      let dir1 := dirRemove dir name
      .ok true { s with bitmapFile := bmB, dirs := updateD s.dirs 1 dir1 }
  else .ub s

/-! ## Open-file table: `OpenId`, `kwrite`, `kread` (filesys.cc, 377-419)

`OpenTable` is the `FileSystem` member array of open-file pointers;
`filesys.h` is not in the provided sources, but the loop in `OpenId`
scans ids `1..20` (`fd` starts at 0 and is pre-incremented), so the
table has (at least) slots `0..20`; slot 0 is never assigned.  The
table is modelled as a 21-slot list, `none` = `NULL`. -/

/-- The open-file table: 21 slots, index = `OpenFileId`. -/
def OpenTable : Type := List (Option OpenResult)

instance : DecidableEq OpenTable :=
  inferInstanceAs (DecidableEq (List (Option OpenResult)))

/-- The scan order of `OpenId`: ids `1, 2, ..., 20`. -/
def idRange : List Nat := List.range' 1 20

/-- The lowest id in `1..20` whose slot is `NULL`, if any. -/
def firstFreeId (t : OpenTable) : Option Nat :=
  List.find? (fun fd => (List.getD t fd none).isNone) idRange

/-- An `OpenTable` whose 21 slots are all `NULL`. -/
def tEmpty : OpenTable := List.replicate 21 none

/-- An `OpenTable` with slot 0 `NULL` (reserved, never assigned) and
every id `1..20` occupied. -/
def tFull : OpenTable := none :: List.replicate 20 (some OpenResult.uninit)

/-- The id scan of `FileSystem::OpenId`: try each id in order; the first
`NULL` slot receives the opened file and its id is returned.  When all
of `1..20` are occupied the loop increments `fd` to 21, reads
`OpenTable[21]` out of bounds and the `ASSERT(fd <= 20)` fires: fatal,
modelled `none`. -/
def openIdGo (t : OpenTable) (v : OpenResult) : List Nat → Option (Nat × OpenTable)
  | [] => none
  | fd :: rest =>
    if (List.getD t fd none).isNone then some (fd, List.set t fd (some v))
    else openIdGo t v rest

/-- The table part of `FileSystem::OpenId`, given the value `Open`
returned (stored with NO validity check). -/
def openIdScan (t : OpenTable) (v : OpenResult) : Option (Nat × OpenTable) :=
  openIdGo t v idRange

/-- `FileSystem::OpenId(name)`: call `Open`, then bind whatever it
returned (`openIdGo` applies no check to `v`); `none` only when `Open`
itself crashed or the table scan was fatal. -/
def openIdFS (s : FSState) (t : OpenTable) (comps : List String) :
    Option (Nat × OpenTable) :=
  match openFS s comps with
  | none => none
  | some v => openIdScan t v

/-- Modelled from the spec: `OpenFile::Write` (`openfile.cc` is not in
the provided sources) transfers bytes through a real handle and
returns the count transferred; calling it through the indeterminate
`uninit` pointer is UB (`none`).  The exact count returned for a real
handle is irrelevant to every claim below, which only concern
forwarding. -/
def fileWrite (h : OpenResult) (size : Int) : Option Int :=
  match h with
  | .handle _ => some size
  | .uninit => none

/-- Modelled from the spec: `OpenFile::Read`, as `fileWrite`. -/
def fileRead (h : OpenResult) (size : Int) : Option Int :=
  match h with
  | .handle _ => some size
  | .uninit => none

/-- `FileSystem::kwrite(buffer, size, id)`: `file = OpenTable[id];
return file->Write(...)` — no check of any kind; a `NULL` slot is a
null dereference (UB, `none`). -/
def kwriteFS (t : OpenTable) (id : Nat) (size : Int) : Option Int :=
  match List.getD t id none with
  | none => none
  | some h => fileWrite h size

/-- `FileSystem::kread(buffer, size, id)`, same shape as `kwrite`. -/
def kreadFS (t : OpenTable) (id : Nat) (size : Int) : Option Int :=
  match List.getD t id none with
  | none => none
  | some h => fileRead h size

/-! ## Observation helpers shared by the claim theorems -/

/-- The state carried by a `CResult` (for `ub`, the state as committed
when the undefined behaviour was reached). -/
def stateOfC : CResult → FSState
  | .ok _ s => s
  | .ub s => s

/-- The boolean outcome of a `CResult`, `none` for UB / fatal paths. -/
def okOfC : CResult → Option Bool
  | .ok b _ => some b
  | .ub _ => none

/-- Whether a `CResult` is the UB outcome. -/
def isUB : CResult → Bool
  | .ok _ _ => false
  | .ub _ => true

/-- State produced by `create("/a.txt", 50)` on a freshly formatted
disk — Scenario B's first step, shared by several witnesses. -/
def stA : FSState := stateOfC (createFS fmtState ["a.txt"] 50)

/-- State with a directory `x` (made by `createDirectory("/x")`)
containing a 50-byte file `y` (made by `create("/x/y", 50)`). -/
def stXY : FSState :=
  stateOfC (createFS (stateOfC (createDirFS fmtState ["x"])) ["x", "y"] 50)

/-- State after `createDirectory("/x")` on a freshly formatted disk:
directory `x` exists and is empty — the existing prefix of the mixed
path exercised below. -/
def stX : FSState := stateOfC (createDirFS fmtState ["x"])

/-- State after `createDirectory("/x/y/z")` on `stX`: a mixed path whose
first component exists and whose last two are missing. -/
def stMixed : FSState := stateOfC (createDirFS stX ["x", "y", "z"])

/-- The `isDir` flag of a directory's in-use entry, `false` when absent. -/
def entryIsDir (d : Directory) (n : String) : Bool :=
  match List.find? (fun e => e.inUse && e.name == n) d.table with
  | some e => e.isDir
  | none => false

/-! ## C4 -/

/-- C4: the claim says that when an intermediate path component is
absent, `Create(path, size)` fails with `NameNotFound` and no mutation
has occurred.  On the code this fails: `Create("/a/b", 50)` on a
freshly formatted disk (where `a` does not exist) CREATES a plain file
named `a` of the full requested size and commits it — the root
directory on disk lists `a` — and then, at component `b`, writes the
directory through the never-assigned `openFileDir` pointer (undefined
behaviour), instead of short-circuiting with no mutation. -/
theorem create_missing_intermediate_mutates :
    isUB (createFS fmtState ["a", "b"] 50) = true ∧
    dirListNames (fetchDir (stateOfC (createFS fmtState ["a", "b"] 50)) 1) =
      [("a", false)] := by decide

/-! ## C5 -/

/-- The walk of `Create` succeeds at every component: each one is found
in the current directory (with an in-range header sector, as the
`OpenFile` constructor requires) and the walk descends through the
fetched table.  Mirrors exactly the found-branch conditions of
`createStep`. -/
def allFoundB (s : FSState) (dir : Directory) : List String → Bool
  | [] => true
  | c :: cs =>
    let sec := dirFind dir c
    if sec ≠ -1 then
      if 0 ≤ sec ∧ sec < (NumSectors : Int) then allFoundB s (fetchDir s sec.toNat) cs
      else false
    else false

lemma allFoundB_cons {s : FSState} {dir : Directory} {c : String} {cs : List String}
    (h : allFoundB s dir (c :: cs) = true) :
    dirFind dir c ≠ -1 ∧ (0 ≤ dirFind dir c ∧ dirFind dir c < (NumSectors : Int)) ∧
      allFoundB s (fetchDir s (dirFind dir c).toNat) cs = true := by
  simp only [allFoundB] at h
  by_cases h1 : dirFind dir c = -1
  · rw [if_neg (not_not_intro h1)] at h
    exact absurd h (by decide)
  · by_cases h2 : 0 ≤ dirFind dir c ∧ dirFind dir c < (NumSectors : Int)
    · rw [if_pos h1, if_pos h2] at h
      exact ⟨h1, h2, h⟩
    · rw [if_pos h1, if_neg h2] at h
      exact absurd h (by decide)

lemma createStep_found (sz : Nat) (s : FSState) (dir : Directory) (ofd : Option Int)
    (count : Nat) (c : String) (h1 : dirFind dir c ≠ -1)
    (h2 : 0 ≤ dirFind dir c ∧ dirFind dir c < (NumSectors : Int)) :
    createStep sz s dir ofd count c =
      .next s (fetchDir s (dirFind dir c).toNat) (some (dirFind dir c)) false := by
  simp only [createStep]
  rw [if_pos h1, if_pos h2]

lemma createLoop_allFound (sz : Nat) (s : FSState) :
    ∀ (cs : List String) (dir : Directory) (ofd : Option Int) (count : Nat) (c : String),
      allFoundB s dir (c :: cs) = true →
      createLoop sz s dir ofd count false c cs = .ub s := by
  intro cs
  induction cs with
  | nil =>
    intro dir ofd count c h
    obtain ⟨h1, h2, _⟩ := allFoundB_cons h
    simp only [createLoop, createStep_found sz s dir ofd count c h1 h2]
    rw [decide_eq_false h1]
    rfl
  | cons p ps ih =>
    intro dir ofd count c h
    obtain ⟨h1, h2, h3⟩ := allFoundB_cons h
    simp only [createLoop, createStep_found sz s dir ofd count c h1 h2]
    rw [decide_eq_false h1]
    exact ih (fetchDir s (dirFind dir c).toNat) (some (dirFind dir c)) (count + 1) p h3

/-- C5: the claim says that when the final component already exists in
its containing directory, `Create` returns failure
(`NameAlreadyExists`) and the on-disk directory is unchanged.  On the
code there is no well-defined failure return: when every component of
the walk resolves, no iteration ever takes the not-found branch, so
the loop-local `freeMap` pointer (filesys.cc line 191) is never
assigned — and the unconditional `delete freeMap` at function exit
(line 248) operates on an indeterminate pointer: undefined behaviour.
The positive half of the claim does hold up to that point: no
write-back of any kind has happened, so the `ub` outcome carries the
input state `s` completely unchanged — but the promised `FALSE` return
is never well-definedly reached. -/
theorem create_existing_final_ub_at_exit (s : FSState) (sz : Nat)
    (c : String) (cs : List String)
    (h : allFoundB s (fetchDir s 1) (c :: cs) = true) :
    createFS s (c :: cs) sz = .ub s :=
  createLoop_allFound sz s cs (fetchDir s 1) none 0 c h

/-- C5 witness, Scenario B: after `create("/a.txt", 50)` on a formatted
disk, `a.txt` resolves in the root; the second `create("/a.txt", 10)`
reaches the exit `delete` of the never-assigned `freeMap` (UB) with
the on-disk state untouched — the root directory still lists exactly
one entry named `a.txt` — instead of returning `FALSE`. -/
theorem create_existing_final_ub_at_exit_witness :
    allFoundB stA (fetchDir stA 1) ["a.txt"] = true ∧
    createFS stA ["a.txt"] 10 = .ub stA ∧
    dirListNames (fetchDir stA 1) = [("a.txt", false)] :=
  ⟨by decide,
   create_existing_final_ub_at_exit stA 10 "a.txt" [] (by decide),
   by decide⟩

/-! ## C6 -/

/-- C6: the claim says `Open(path)` returns a null/none not-found signal
whenever any component is absent.  On the code this fails: on a
freshly formatted disk `Open("/a")` returns the never-assigned local
`openFileDir` (an indeterminate pointer, not `NULL`), and on a disk
where directory `x` exists, `Open("/x/zzz")` with `zzz` absent returns
the handle of `x` — the deepest component that did resolve — rather
than a not-found signal. -/
theorem open_no_notfound_signal :
    openFS fmtState ["a"] = some OpenResult.uninit ∧
    openFS stXY ["x", "zzz"] =
      some (OpenResult.handle (dirFind (fetchDir stXY 1) "x")) := by decide

/-! ## C7 -/

/-- C7 counterexample: on a disk where directory `x` contains file `y`,
the final component `y` IS present in its parent directory, yet
`Remove("x/y")` returns `FALSE` (it looks the whole string `"x/y"` up
in the ROOT directory, which has no such entry) — the claim's promised
resolve-and-remove does not happen.  Moreover `Remove("x")` succeeds
on a DIRECTORY entry, contradicting "removes a plain file only". -/
theorem remove_counterexample :
    entryIsDir (fetchDir stXY 1) "x" = true ∧
    dirFind (fetchDir stXY (dirFind (fetchDir stXY 1) "x").toNat) "y" ≠ -1 ∧
    removeFS stXY "x/y" = .ok false stXY ∧
    okOfC (removeFS stXY "x") = some true := by
  refine ⟨by decide, by decide, rfl, by decide⟩

/-- C7 as amended: `Remove(name)` does no path resolution at all — it
looks the entire `name` string up in the ROOT directory only.  If
absent it returns `FALSE` with no mutation; if present (file or
directory alike, no kind check) it deallocates the header's sector
tree, clears the header's own sector, removes the root entry and
writes bitmap and root directory back, returning `TRUE`. -/
theorem remove_root_lookup_only (s : FSState) (n : String) :
    (dirFind (fetchDir s 1) n = -1 → removeFS s n = .ok false s) ∧
    (∀ bmA : BM,
      dirFind (fetchDir s 1) n ≠ -1 →
      0 ≤ dirFind (fetchDir s 1) n →
      dirFind (fetchDir s 1) n < (NumSectors : Int) →
      deallocate ((s.headers (dirFind (fetchDir s 1) n).toNat).getD garbageHeader)
        s.bitmapFile = some bmA →
      removeFS s n = .ok true
        { s with bitmapFile := bmClear bmA (dirFind (fetchDir s 1) n).toNat,
                 dirs := updateD s.dirs 1 (dirRemove (fetchDir s 1) n) }) := by
  constructor
  · intro h
    simp only [removeFS]
    rw [if_pos h]
  · intro bmA h1 h2 h3 h4
    simp only [removeFS]
    rw [if_neg h1, if_pos ⟨h2, h3⟩, h4]

/-- C7 witness: `a.txt` (a 50-byte root-level file) is present in the
root of `stA`; `Remove("a.txt")` succeeds through the amended
contract. -/
theorem remove_root_lookup_only_witness :
    dirFind (fetchDir stA 1) "a.txt" ≠ -1 ∧
    okOfC (removeFS stA "a.txt") = some true := by
  have h := (remove_root_lookup_only stA "a.txt").2
    ((deallocate ((stA.headers (dirFind (fetchDir stA 1) "a.txt").toNat).getD garbageHeader)
        stA.bitmapFile).getD [])
    (by decide) (by decide) (by decide) (by decide)
  exact ⟨by decide, by rw [h]; rfl⟩

/-! ## C8 -/

/-- State carried by a loop-iteration outcome. -/
def stepState : StepRes → FSState
  | .ub s => s
  | .next s _ _ _ => s

/-- In-memory directory handed to the next iteration, `none` on UB. -/
def stepDir : StepRes → Option Directory
  | .ub _ => none
  | .next _ d _ _ => some d

/-- The `openFileDir` value handed to the next iteration, `none` on UB. -/
def stepOfd : StepRes → Option (Option Int)
  | .ub _ => none
  | .next _ _ o _ => some o

/-- The iteration's `success` flag, `none` on UB. -/
def stepSucc : StepRes → Option Bool
  | .ub _ => none
  | .next _ _ _ b => some b

/-- Header records carried by an `AllocResult`. -/
def hsOfRes : AllocResult → Headers
  | .ok _ _ _ hs => hs
  | .abort _ hs => hs

lemma firstFreeIdx_lt_length :
    ∀ (l : List DirEntry) (i : Nat), firstFreeIdx l = some i → i < List.length l := by
  intro l
  induction l with
  | nil => intro i h; cases h
  | cons e rest ih =>
    intro i h
    simp only [firstFreeIdx] at h
    by_cases he : e.inUse
    · rw [if_pos he] at h
      cases hr : firstFreeIdx rest with
      | none => rw [hr] at h; cases h
      | some j =>
        rw [hr] at h
        have h2 : some (j + 1) = some i := h
        cases h2
        have := ih j hr
        simp only [List.length_cons]
        omega
    · rw [if_neg he] at h
      cases h
      simp only [List.length_cons]
      omega

lemma find?_set_of_all_false {α : Type} (p : α → Bool) :
    ∀ (l : List α) (i : Nat) (a : α), (∀ x ∈ l, p x = false) → p a = true →
      i < List.length l → List.find? p (List.set l i a) = some a := by
  intro l
  induction l with
  | nil => intro i a _ _ hi; simp at hi
  | cons x xs ih =>
    intro i a hall hpa hi
    cases i with
    | zero =>
      simp only [List.set]
      rw [List.find?_cons_of_pos _ hpa]
    | succ j =>
      simp only [List.set]
      rw [List.find?_cons_of_neg _ (by simp [hall x (List.mem_cons_self x xs)])]
      exact ih j a (fun e he => hall e (List.mem_cons_of_mem x he)) hpa
        (by simpa using hi)

/-- A successful `Directory::Add` of a fresh name makes the new entry
findable: `Find` yields its sector and its `isDir` flag is the one
stored. -/
lemma dirAdd_links {d : Directory} {n : String} {sec : Int} {isD : Bool} {d1 : Directory}
    (h : dirAdd d n sec isD = some d1) :
    dirFind d1 n = sec ∧ entryIsDir d1 n = isD := by
  unfold dirAdd at h
  cases hfind : List.find? (fun e => e.inUse && e.name == n) d.table with
  | some e => rw [hfind] at h; simp at h
  | none =>
    rw [hfind] at h
    simp only [Option.isSome_none, Bool.false_eq_true, if_false] at h
    cases hidx : firstFreeIdx d.table with
    | none => rw [hidx] at h; cases h
    | some i =>
      rw [hidx] at h
      have hd1 : some (Directory.mk (List.set d.table i ⟨true, n, sec, isD⟩)) = some d1 := h
      cases hd1
      have hlt := firstFreeIdx_lt_length d.table i hidx
      have hall : ∀ e ∈ d.table, ((fun e => e.inUse && e.name == n) e) = false := by
        intro e he
        have hne := List.find?_eq_none.mp hfind e he
        exact Bool.eq_false_iff.mpr hne
      have hpa : ((fun e => e.inUse && e.name == n) (⟨true, n, sec, isD⟩ : DirEntry)) = true := by
        simp
      have hfound := find?_set_of_all_false _ d.table i _ hall hpa hlt
      constructor
      · unfold dirFind
        rw [hfound]
      · unfold entryIsDir
        rw [hfound]

/-- The committed state of a successful `CreateDir` creation step, as
one explicit record: whichever write-back target applies (`count == 0`
or not), the parent's sector receives `dir1`, the fresh sector
receives the empty table, the header and bitmap are written. -/
lemma createDirCommit_state (s : FSState) (ofd : Option Int) (count : Nat)
    (sector : Nat) (dir1 : Directory) (hdr : FileHeader) (bmB : BM) (hsB : Headers)
    (parent : Nat)
    (h0 : count = 0 → parent = 1)
    (h1 : count ≠ 0 → ofd = some (Int.ofNat parent)) :
    createDirCommit s ofd count sector dir1 hdr bmB hsB =
      .next { s with headers := updateH hsB sector hdr,
                     dirs := updateD (updateD s.dirs parent dir1) sector emptyDir,
                     bitmapFile := bmB }
        dir1 (some (Int.ofNat sector)) true := by
  by_cases hc : count = 0
  · have hp := h0 hc
    subst hp
    subst hc
    rfl
  · cases count with
    | zero => exact absurd rfl hc
    | succ k =>
      rw [h1 hc]
      rfl

/-- C8: every iteration of `createDirLoop` is one `createDirStep`
applied to the walk's running state, so this theorem quantifies over
every component position of every path (`parent` is the sector whose
table the iteration fetches: the root at the first position, the
current `openFileDir` after that).  A FOUND component only redirects
the walk — `success = FALSE`, no state change, no creation.  EVERY
MISSING component — at any depth, not only the last — is created as a
nested directory whenever a header sector, a parent slot and data
space are available: its entry is linked into the parent's table with
`isDir` set at the freshly claimed sector, a new, initially-empty
directory table is written back to that sector immediately, the
parent's table and the header are on disk, and the iteration reports
success, handing the new directory's sector to the rest of the
walk. -/
theorem createdir_creates_every_missing_component :
    (∀ (s : FSState) (ofd : Option Int) (count : Nat) (pch : String) (parent : Nat),
      (count = 0 → parent = 1) →
      (count ≠ 0 → ofd = some (Int.ofNat parent) ∧ (Int.ofNat parent) < (NumSectors : Int)) →
      dirFind (fetchDir s parent) pch ≠ -1 →
      0 ≤ dirFind (fetchDir s parent) pch →
      dirFind (fetchDir s parent) pch < (NumSectors : Int) →
      createDirStep s ofd count pch =
        .next s (fetchDir s parent) (some (dirFind (fetchDir s parent) pch)) false) ∧
    (∀ (s : FSState) (ofd : Option Int) (count : Nat) (pch : String) (parent : Nat)
        (sector : Nat) (bmA : BM) (dir1 : Directory),
      (count = 0 → parent = 1) →
      (count ≠ 0 → ofd = some (Int.ofNat parent) ∧ (Int.ofNat parent) < (NumSectors : Int)) →
      dirFind (fetchDir s parent) pch = -1 →
      bmFindAndSet s.bitmapFile = some (sector, bmA) →
      dirAdd (fetchDir s parent) pch (Int.ofNat sector) true = some dir1 →
      resSuccess (allocate bmA s.headers DirectoryFileSize) = some true →
      sector ≠ parent →
      dirFind dir1 pch = Int.ofNat sector ∧
      entryIsDir dir1 pch = true ∧
      stepSucc (createDirStep s ofd count pch) = some true ∧
      stepDir (createDirStep s ofd count pch) = some dir1 ∧
      stepOfd (createDirStep s ofd count pch) = some (some (Int.ofNat sector)) ∧
      (stepState (createDirStep s ofd count pch)).dirs sector = some emptyDir ∧
      (stepState (createDirStep s ofd count pch)).dirs parent = some dir1 ∧
      (stepState (createDirStep s ofd count pch)).headers sector =
        some (hdrOfRes (allocate bmA s.headers DirectoryFileSize)) ∧
      (stepState (createDirStep s ofd count pch)).bitmapFile =
        bmOfRes (allocate bmA s.headers DirectoryFileSize)) := by
  have hfetch : ∀ (s : FSState) (ofd : Option Int) (count : Nat) (parent : Nat),
      (count = 0 → parent = 1) →
      (count ≠ 0 → ofd = some (Int.ofNat parent) ∧ (Int.ofNat parent) < (NumSectors : Int)) →
      createDirFetch s ofd count = some (fetchDir s parent) := by
    intro s ofd count parent h0 h1
    by_cases hc : count = 0
    · unfold createDirFetch
      rw [if_pos hc, h0 hc]
    · obtain ⟨ho, hr⟩ := h1 hc
      unfold createDirFetch
      rw [if_neg hc, ho]
      show (if 0 ≤ Int.ofNat parent ∧ Int.ofNat parent < (NumSectors : Int)
        then some (fetchDir s (Int.ofNat parent).toNat) else none) = some (fetchDir s parent)
      rw [if_pos ⟨Int.natCast_nonneg parent, hr⟩]
      rfl
  have hstep : ∀ (s : FSState) (ofd : Option Int) (count : Nat) (pch : String) (parent : Nat),
      (count = 0 → parent = 1) →
      (count ≠ 0 → ofd = some (Int.ofNat parent) ∧ (Int.ofNat parent) < (NumSectors : Int)) →
      createDirStep s ofd count pch = createDirBody s ofd count pch (fetchDir s parent) := by
    intro s ofd count pch parent h0 h1
    unfold createDirStep
    rw [hfetch s ofd count parent h0 h1]
  constructor
  · intro s ofd count pch parent h0 h1 hne hge hlt
    rw [hstep s ofd count pch parent h0 h1]
    simp only [createDirBody]
    rw [if_pos hne, if_pos ⟨hge, hlt⟩]
  · intro s ofd count pch parent sector bmA dir1 h0 h1 hmiss hbm hadd hres hnp
    obtain ⟨hL1, hL2⟩ := dirAdd_links hadd
    cases halloc : allocate bmA s.headers DirectoryFileSize with
    | abort bmX hsX =>
      rw [halloc] at hres
      simp [resSuccess] at hres
    | ok b hdr bmB hsB =>
      rw [halloc] at hres
      have hb : b = true := by
        have h2 : some b = some true := hres
        cases h2
        rfl
      subst hb
      have hrun : createDirStep s ofd count pch =
          .next { s with headers := updateH hsB sector hdr,
                         dirs := updateD (updateD s.dirs parent dir1) sector emptyDir,
                         bitmapFile := bmB }
            dir1 (some (Int.ofNat sector)) true := by
        rw [hstep s ofd count pch parent h0 h1]
        simp only [createDirBody]
        rw [if_neg (not_not_intro hmiss)]
        simp only [createDirMissing]
        rw [hbm]
        simp only [createDirClaim]
        rw [hadd]
        simp only [createDirAlloc]
        rw [halloc]
        exact createDirCommit_state s ofd count sector dir1 hdr bmB hsB parent h0
          (fun hc => (h1 hc).1)
      refine ⟨hL1, hL2, ?_, ?_, ?_, ?_, ?_, ?_, ?_⟩
      · rw [hrun]
        rfl
      · rw [hrun]
        rfl
      · rw [hrun]
        rfl
      · rw [hrun]
        simp [stepState, updateD]
      · rw [hrun]
        have hnp' : parent ≠ sector := Ne.symm hnp
        simp [stepState, updateD, hnp']
      · rw [hrun]
        simp [stepState, updateH, hdrOfRes]
      · rw [hrun]
        simp [stepState, bmOfRes]

/-- Concrete per-iteration inputs for the witness: the walk
`createDirectory("/x/y/z")` on `stX`, whose second iteration creates
`y` inside the existing directory `x`. -/
def c8parent : Nat := (dirFind (fetchDir stX 1) "x").toNat

/-- The header sector and mutated bitmap claimed for `y`. -/
def c8pair : Nat × BM := (bmFindAndSet stX.bitmapFile).getD (0, [])

/-- The header sector claimed for `y`. -/
def c8sec : Nat := c8pair.1

/-- The bitmap right after claiming `y`'s header sector. -/
def c8bmA : BM := c8pair.2

/-- `x`'s table right after `AddDir("y", c8sec)`. -/
def c8dir1 : Directory :=
  (dirAdd (fetchDir stX c8parent) "y" (Int.ofNat c8sec) true).getD emptyDir

/-- C8 witness: the theorem applied to both iteration shapes of the
mixed walk `createDirectory("/x/y/z")` on a disk where `x` already
exists — the found iteration for `x` redirects without mutation, and
the missing iteration for `y` creates it inside `x` — together with
the end-to-end run: the call returns `TRUE` and the root lists `x`,
`x` lists `y`, `y` lists `z` (two ancestors synthesized by one
call). -/
theorem createdir_creates_every_missing_component_witness :
    createDirStep stX none 0 "x" =
      .next stX (fetchDir stX 1) (some (dirFind (fetchDir stX 1) "x")) false ∧
    dirFind c8dir1 "y" = Int.ofNat c8sec ∧
    entryIsDir c8dir1 "y" = true ∧
    stepSucc (createDirStep stX (some (Int.ofNat c8parent)) 1 "y") = some true ∧
    (stepState (createDirStep stX (some (Int.ofNat c8parent)) 1 "y")).dirs c8sec =
      some emptyDir ∧
    (stepState (createDirStep stX (some (Int.ofNat c8parent)) 1 "y")).dirs c8parent =
      some c8dir1 ∧
    okOfC (createDirFS stX ["x", "y", "z"]) = some true ∧
    dirListNames (fetchDir stMixed 1) = [("x", true)] ∧
    dirListNames (fetchDir stMixed (dirFind (fetchDir stMixed 1) "x").toNat) =
      [("y", true)] ∧
    dirListNames (fetchDir stMixed
      (dirFind (fetchDir stMixed (dirFind (fetchDir stMixed 1) "x").toNat) "y").toNat) =
      [("z", true)] := by
  have hfound := createdir_creates_every_missing_component.1 stX none 0 "x" 1
    (fun _ => rfl) (fun hc => absurd rfl hc) (by decide) (by decide) (by decide)
  have hmiss := createdir_creates_every_missing_component.2 stX
    (some (Int.ofNat c8parent)) 1 "y" c8parent c8sec c8bmA c8dir1
    (fun h => absurd h (by decide)) (fun _ => ⟨rfl, by decide⟩)
    (by decide) (by decide) (by decide) (by decide) (by decide)
  obtain ⟨ha, hb, hcx, _, _, hf, hg, _, _⟩ := hmiss
  exact ⟨hfound, ha, hb, hcx, hf, hg, by decide, by decide, by decide, by decide⟩

/-! ## C9 -/

lemma openIdGo_eq_find (v : OpenResult) :
    ∀ (ids : List Nat) (t : OpenTable),
      openIdGo t v ids =
        Option.map (fun fd => (fd, List.set t fd (some v)))
          (List.find? (fun fd => (List.getD t fd none).isNone) ids) := by
  intro ids t
  induction ids with
  | nil => rfl
  | cons fd rest ih =>
    simp only [openIdGo, List.find?]
    by_cases h : (List.getD t fd none).isNone
    · rw [if_pos h, h]
      rfl
    · rw [if_neg h, Bool.eq_false_iff.mpr h]
      exact ih

lemma idRange_bounds : ∀ fd ∈ idRange, 1 ≤ fd ∧ fd ≤ 20 := by decide

lemma firstFreeId_spec {t : OpenTable} {fd : Nat} (h : firstFreeId t = some fd) :
    1 ≤ fd ∧ fd ≤ 20 ∧ List.getD t fd none = none := by
  have hmem := List.mem_of_find?_eq_some h
  have hp := List.find?_some h
  obtain ⟨hb1, hb2⟩ := idRange_bounds fd hmem
  exact ⟨hb1, hb2, Option.isNone_iff_eq_none.mp hp⟩

/-- C9: the id scan of `OpenId` binds the opened file to the LOWEST free
id, where `firstFreeId` is by construction the first `NULL` slot in
the ascending scan order `1, 2, ..., 20` (id 0 is never probed —
reserved); any returned id lies in `1..20` and its slot was `NULL`;
and when no slot in `1..20` is free the call is fatal
(`ASSERT(fd <= 20)` fires after an out-of-bounds probe of slot 21),
modelled as `none` — not a recoverable error return. -/
theorem openid_lowest_free_or_fatal (t : OpenTable) (v : OpenResult)
    (_hlen : List.length t = 21) :
    (openIdScan t v =
      Option.map (fun fd => (fd, List.set t fd (some v))) (firstFreeId t)) ∧
    (∀ fd tA, openIdScan t v = some (fd, tA) →
      1 ≤ fd ∧ fd ≤ 20 ∧ List.getD t fd none = none ∧
      tA = List.set t fd (some v)) ∧
    (firstFreeId t = none → openIdScan t v = none) := by
  have hgo := openIdGo_eq_find v idRange t
  refine ⟨hgo, ?_, ?_⟩
  · intro fd tA h
    simp only [openIdScan] at h
    rw [hgo] at h
    cases hf : firstFreeId t with
    | none =>
      rw [show List.find? (fun fd => (List.getD t fd none).isNone) idRange = none from hf] at h
      cases h
    | some fd2 =>
      rw [show List.find? (fun fd => (List.getD t fd none).isNone) idRange = some fd2
        from hf] at h
      have h2 : some (fd2, List.set t fd2 (some v)) = some (fd, tA) := h
      rw [Option.some.injEq, Prod.mk.injEq] at h2
      obtain ⟨rfl, rfl⟩ := h2
      obtain ⟨hb1, hb2, hn⟩ := firstFreeId_spec hf
      exact ⟨hb1, hb2, hn, rfl⟩
  · intro hf
    simp only [openIdScan]
    rw [hgo, show List.find? (fun fd => (List.getD t fd none).isNone) idRange = none from hf]
    rfl

/-- C9 witness: with an all-`NULL` table the theorem yields the scan's
outcome at the lowest id, and with every id `1..20` occupied (slot 0
`NULL`, i.e. reserved-but-unused) the call is fatal. -/
theorem openid_lowest_free_or_fatal_witness :
    openIdScan tFull OpenResult.uninit = none ∧
    openIdScan tEmpty (OpenResult.handle 3) =
      Option.map (fun fd => (fd, List.set tEmpty fd (some (OpenResult.handle 3))))
        (firstFreeId tEmpty) :=
  ⟨(openid_lowest_free_or_fatal tFull OpenResult.uninit (by decide)).2.2 (by decide),
   (openid_lowest_free_or_fatal tEmpty (OpenResult.handle 3) (by decide)).1⟩

/-! ## C10 -/

lemma getD_set_self {α : Type} (d : α) :
    ∀ (l : List α) (i : Nat) (a : α), i < List.length l →
      List.getD (List.set l i a) i d = a := by
  intro l
  induction l with
  | nil => intro i a h; cases h
  | cons x xs ih =>
    intro i a h
    cases i with
    | zero => rfl
    | succ j => exact ih j a (Nat.lt_of_succ_lt_succ h)

/-- C10: `OpenId` applies NO validity check to the value `Open`
returned: whatever `v` is — including the indeterminate `uninit`
pointer produced for a path whose components do not all exist — it is
stored in the lowest free slot and that slot's id in `1..20` is
returned; there is no not-found failure at this interface, and
`kwrite` / `kread` on the returned id forward to exactly the stored
value. -/
theorem openid_stores_unchecked (s : FSState) (comps : List String)
    (t : OpenTable) (v : OpenResult) (fd : Nat) (size : Int)
    (hlen : List.length t = 21)
    (hopen : openFS s comps = some v)
    (hfree : firstFreeId t = some fd) :
    openIdFS s t comps = some (fd, List.set t fd (some v)) ∧
    List.getD (List.set t fd (some v)) fd none = some v ∧
    kwriteFS (List.set t fd (some v)) fd size = fileWrite v size ∧
    kreadFS (List.set t fd (some v)) fd size = fileRead v size := by
  obtain ⟨hb1, hb2, _⟩ := firstFreeId_spec hfree
  have hlt : fd < List.length t := by omega
  have hget : List.getD (List.set t fd (some v)) fd none = some v := by
    rw [getD_set_self (none) t fd (some v) hlt]
  refine ⟨?_, hget, ?_, ?_⟩
  · simp only [openIdFS]
    rw [hopen]
    simp only [openIdScan]
    rw [openIdGo_eq_find v idRange t]
    simp only [firstFreeId] at hfree
    rw [hfree]
    rfl
  · simp only [kwriteFS]
    rw [hget]
  · simp only [kreadFS]
    rw [hget]

/-- C10 witness: on a freshly formatted disk the path `nope` does not
resolve and `Open` yields the indeterminate `uninit` value; `OpenId`
nevertheless consumes slot 1 of an all-`NULL` table, returns id 1, and
a subsequent `kwrite` of 5 bytes on that id forwards to the stored
garbage value (UB, `none`). -/
theorem openid_stores_unchecked_witness :
    openFS fmtState ["nope"] = some OpenResult.uninit ∧
    openIdFS fmtState tEmpty ["nope"] =
      some (1, List.set tEmpty 1 (some OpenResult.uninit)) ∧
    kwriteFS (List.set tEmpty 1 (some OpenResult.uninit)) 1 5 = none := by
  have h := openid_stores_unchecked fmtState ["nope"] tEmpty OpenResult.uninit 1 5
    (by decide) (by decide) (by decide)
  exact ⟨by decide, h.1, h.2.2.1⟩

end NachosFS
